import Mathlib

/-!
Shallow embedding of the heuristic static-analysis engine of the
Git-Repository-Analysis-Onboarding-Tool repository: the line-oriented
analyzers under `ai_code_review/analyzers` (security, performance,
quality), the NexaTest rule set (`rules/*.py`) with its `RuleEngine`,
and the `ScoreEngine`.

A source line is modelled as a list of characters (`Line`); a source
text as the list of its lines, i.e. the result of Python's
`str.splitlines()`.  The Python string primitives the analyzers use
(`strip`, `lstrip`, `startswith`, `endswith`, `count`, `split`, `in`)
are modelled as executable functions on character lists below.
-/

/-- A single source line (no newline characters inside). -/
abbrev Line := List Char

/-- Characters Python's `str.strip()` removes, restricted to those that can
occur inside one line after `splitlines` (space, tab, carriage return,
form feed, vertical tab). -/
def pyIsSpace (c : Char) : Bool :=
  c == ' ' || c == '\t' || c == '\x0d' || c == '\x0c' || c == '\x0b'

/-- Python `s.lstrip()`. -/
def pyLStrip (l : Line) : Line := l.dropWhile pyIsSpace

/-- Python `s.strip()`: drop leading and trailing whitespace. -/
def pyStrip (l : Line) : Line := (pyLStrip l).rdropWhile pyIsSpace

/-- `len(line) - len(line.lstrip())`: the indentation width used by all
the analyzers. -/
def pyIndent (l : Line) : Nat := l.length - (pyLStrip l).length

/-- The characters of a Lean string literal, used to write concrete lines. -/
def strLit (s : String) : Line := s.data

/-- Python `sep in l` (substring containment). -/
def containsSeq (sep : Line) : Line → Bool
  | [] => sep.isEmpty
  | c :: rest => sep.isPrefixOf (c :: rest) || containsSeq sep rest

/-- Helper for `countSeq`: while `skip > 0` the characters still belong
to an already-counted occurrence of the separator. -/
def countSeqGo (sep : Line) (skip : Nat) : Line → Nat
  | [] => 0
  | c :: rest =>
    match skip with
    | k + 1 => countSeqGo sep k rest
    | 0 =>
      if sep.isPrefixOf (c :: rest) ∧ sep ≠ [] then
        1 + countSeqGo sep (sep.length - 1) rest
      else
        countSeqGo sep 0 rest

/-- Python `l.count(sep)` for a non-empty `sep`: number of non-overlapping
occurrences, scanning left to right.  (`sep = []` never occurs in the
sources; it returns 0 here.) -/
def countSeq (sep : Line) (l : Line) : Nat := countSeqGo sep 0 l

/-- Helper for `splitSeq`: while `skip > 0` the characters still belong
to the separator occurrence that opened the current segment. -/
def splitSeqGo (sep : Line) (skip : Nat) : Line → List Line
  | [] => [[]]
  | c :: rest =>
    match skip with
    | k + 1 => splitSeqGo sep k rest
    | 0 =>
      if sep.isPrefixOf (c :: rest) ∧ sep ≠ [] then
        [] :: splitSeqGo sep (sep.length - 1) rest
      else
        match splitSeqGo sep 0 rest with
        | [] => [[c]]
        | s :: ss => (c :: s) :: ss

/-- Python `l.split(sep)` for a non-empty separator (`sep = []` raises in
Python and never occurs in the sources; it returns `[l]` here). -/
def splitSeq (sep : Line) (l : Line) : List Line := splitSeqGo sep 0 l

/-- `stripped.split("def ")[1].split("(")[0]` — the function-name
extraction shared by the NexaTest rules.  Every call site guards it with
`stripped.startswith("def ")`, so index 1 exists there; out of that
guard we return the empty name. -/
def fnName (stripped : Line) : Line :=
  (((splitSeq (strLit "def ") stripped).getD 1 []).takeWhile (fun c => ¬ c == '('))

/-- Helper for `natLit`, structurally recursive on a fuel argument that
starts at least as large as the number of digits. -/
def natLitGo : Nat → Nat → Line → Line
  | 0, n, acc => Char.ofNat (48 + n % 10) :: acc
  | fuel + 1, n, acc =>
    let d := Char.ofNat (48 + n % 10)
    if n < 10 then d :: acc else natLitGo fuel (n / 10) (d :: acc)

/-- Decimal digits of `n`, as Python's `str.format` renders a
non-negative integer inside an f-string. -/
def natLit (n : Nat) : Line := natLitGo n n []

/-- An issue dict produced by the `ai_code_review` analyzers:
`{"type": ..., "severity": ..., "message": ..., "line": ...}`
(`line` is `None` for the large-file issue). -/
structure AIssue where
  type : Line
  severity : Line
  message : Line
  line : Option Nat
deriving DecidableEq, Repr

/-- An issue dict produced by the NexaTest rules:
`{"rule": ..., "message": ..., "line": ..., "severity": ...}`
(`line` is `None` for the engine's synthetic failure issue). -/
structure RIssue where
  rule : Line
  message : Line
  line : Option Nat
  severity : Line
deriving DecidableEq, Repr

/-! ### SecurityAnalyzer (`ai_code_review/analyzers/security_analyzer.py`)
with its configuration from `Config.py`. -/

/-- `Config.SECURITY_RISKY_CALLS`. -/
def riskyCalls : List Line :=
  [strLit "eval(", strLit "exec(", strLit "os.system(",
   strLit "subprocess.call(", strLit "pickle.load("]

/-- `Config.SECURITY_CREDENTIAL_PATTERNS`. -/
def credentialPatterns : List Line :=
  [strLit "password =", strLit "api_key =", strLit "secret ="]

/-- `Config.SECURITY_SAFE_PATTERNS`. -/
def safePatterns : List Line :=
  [strLit "os.getenv", strLit "os.environ", strLit "environ.get",
   strLit "Config."]

/-- `call.replace('(', '()')`: replaces each `(` by `()`. -/
def riskyCallShown (call : Line) : Line :=
  call.foldr (fun c acc => if c == '(' then '(' :: ')' :: acc else c :: acc) []

/-- The message `f"{call.replace('(', '()')} usage detected"`. -/
def riskyMsg (call : Line) : Line :=
  riskyCallShown call ++ strLit " usage detected"

/-- The issues `SecurityAnalyzer.analyze` appends for the line at 0-based
index `i`: one per matching risky call, then (unless a safe pattern is
on the line) one per matching credential pattern. -/
def secLineIssues (i : Nat) (line : Line) : List AIssue :=
  ((riskyCalls.filter (fun call => containsSeq call line)).map
    (fun call =>
      { type := strLit "security", severity := strLit "high",
        message := riskyMsg call, line := some (i + 1) })) ++
  ((credentialPatterns.filter (fun cred => containsSeq cred line)).map
    (fun _ =>
      if safePatterns.any (fun safe => containsSeq safe line) then
        none
      else
        some { type := strLit "security", severity := strLit "high",
               message := strLit "Potential hardcoded credential detected",
               line := some (i + 1) })).reduceOption

/-- The enumerated loop of `SecurityAnalyzer.analyze` from 0-based index `i`. -/
def secGo (i : Nat) : List Line → List AIssue
  | [] => []
  | l :: rest => secLineIssues i l ++ secGo (i + 1) rest

/-- `SecurityAnalyzer.analyze` on the `splitlines` of the content. -/
def secAnalyzeLines (lines : List Line) : List AIssue := secGo 0 lines

/-! ### PerformanceAnalyzer (`ai_code_review/analyzers/performance_analyzer.py`) -/

/-- Which triple-quote delimiter opened the current string block
(`string_delimiter` in the source). -/
inductive Delim where
  | dq  -- three double quotes
  | sq  -- three single quotes
deriving DecidableEq, Repr

/-- Three double quotes. -/
def dq3 : Line := ['\"', '\"', '\"']

/-- Three single quotes. -/
def sq3 : Line := ['\'', '\'', '\'']

/-- The loop state of `PerformanceAnalyzer.analyze`: the indent stack of
open loops (head = top of the Python list's end), the multiline-string
flag and its delimiter. -/
structure PerfState where
  loopStack : List Nat
  inBlock : Bool
  delim : Option Delim
deriving DecidableEq, Repr

/-- Initial state: `loop_stack = []`, `in_string_block = False`,
`string_delimiter = None`. -/
def perfInit : PerfState := { loopStack := [], inBlock := false, delim := none }

/-- The nested-loop issue emitted at 0-based line index `i`. -/
def nestedLoopIssue (i : Nat) : AIssue :=
  { type := strLit "performance", severity := strLit "high",
    message := strLit "Possible nested loop detected (O(n^2) risk)",
    line := some (i + 1) }

/-- One iteration of the `for i, line in enumerate(lines)` loop of
`PerformanceAnalyzer.analyze`: blank-line skip, multiline-string
tracking, comment skip, inline-comment stripping, loop-stack pops,
nested-loop check and push. -/
def perfStep (s : PerfState) (i : Nat) (line : Line) : PerfState × List AIssue :=
  let stripped := pyStrip line
  if stripped = [] then (s, [])
  else
    let countDouble := countSeq dq3 line
    let countSingle := countSeq sq3 line
    if s.inBlock then
      let s' :=
        if s.delim = some Delim.dq ∧ countDouble % 2 = 1 then
          { s with inBlock := false }
        else if s.delim = some Delim.sq ∧ countSingle % 2 = 1 then
          { s with inBlock := false }
        else s
      (s', [])
    else if countDouble % 2 = 1 then
      ({ s with inBlock := true, delim := some Delim.dq }, [])
    else if countSingle % 2 = 1 then
      ({ s with inBlock := true, delim := some Delim.sq }, [])
    else if (strLit "#").isPrefixOf stripped then (s, [])
    else
      let indent := line.length - stripped.length
      let codePart := pyStrip (line.takeWhile (fun c => ¬ c == '#'))
      let stack' := s.loopStack.dropWhile (fun top => indent ≤ top)
      if (strLit "for ").isPrefixOf codePart ∧ (strLit ":").isSuffixOf codePart then
        let issues := if stack' ≠ [] then [nestedLoopIssue i] else []
        ({ s with loopStack := indent :: stack' }, issues)
      else
        ({ s with loopStack := stack' }, [])

/-- The enumerated loop of `PerformanceAnalyzer.analyze` from 0-based
index `i`, collecting issues in emission order. -/
def perfGo (s : PerfState) (i : Nat) : List Line → List AIssue
  | [] => []
  | l :: rest =>
    (perfStep s i l).2 ++ perfGo (perfStep s i l).1 (i + 1) rest

/-- `PerformanceAnalyzer.analyze` on the `splitlines` of the content. -/
def perfAnalyzeLines (lines : List Line) : List AIssue := perfGo perfInit 0 lines

/-- The analyzer state on entering the line of 0-based index `k` (after
processing the first `k` lines), starting from state `s` at index `i`. -/
def perfStateGo (s : PerfState) (i : Nat) : List Line → Nat → PerfState
  | _, 0 => s
  | [], _ + 1 => s
  | l :: rest, k + 1 => perfStateGo (perfStep s i l).1 (i + 1) rest k

/-- The lexical/loop state of `PerformanceAnalyzer.analyze` on entering
the line of 0-based index `k`. -/
def perfStateBefore (lines : List Line) (k : Nat) : PerfState :=
  perfStateGo perfInit 0 lines k

/-! ### ComplexityRule (`NexaTest/rules/complexity_rule.py`) -/

/-- The fixed tuple `branch_keywords`. -/
def branchKeywords : List Line :=
  [strLit "if ", strLit "for ", strLit "while ", strLit "elif ",
   strLit "except ", strLit "case "]

/-- The message
`f"Function '{func_name}' has high branching complexity ({branch_count} branches)"`. -/
def cxMsg (name : Line) (branchCount : Nat) : Line :=
  strLit "Function '" ++ name ++ strLit "' has high branching complexity (" ++
    natLit branchCount ++ strLit " branches)"

/-- The complexity issue for function `name` declared at `line_no = fline`. -/
def cxIssue (name : Line) (branchCount : Nat) (fline : Nat) : RIssue :=
  { rule := strLit "COMPLEXITY", message := cxMsg name branchCount,
    line := some fline, severity := strLit "warning" }

/-- The loop of `ComplexityRule.evaluate` over `get_lines` (1-based line
numbers), carrying `in_func`, `func_name`, `func_line`, `branch_count`;
flushes the pending function when a new `def ` is seen and again after
the last line.  Note: there is no multiline-string tracking here; every
line's stripped text is matched against the branch keywords. -/
def cxGo (maxBranches : Nat) (inFunc : Bool) (name : Line) (fline : Nat)
    (bc : Nat) (i : Nat) : List Line → List RIssue
  | [] => if inFunc ∧ maxBranches < bc then [cxIssue name bc fline] else []
  | l :: rest =>
    let stripped := pyStrip l
    if (strLit "def ").isPrefixOf stripped then
      (if inFunc ∧ maxBranches < bc then [cxIssue name bc fline] else []) ++
        cxGo maxBranches true (fnName stripped) i 0 (i + 1) rest
    else if inFunc then
      cxGo maxBranches inFunc name fline
        (bc + (branchKeywords.filter (fun kw => kw.isPrefixOf stripped)).length)
        (i + 1) rest
    else
      cxGo maxBranches false name fline bc (i + 1) rest

/-- `ComplexityRule.evaluate` (threshold `MAX_BRANCHES`, default 10) on
the `splitlines` of the code. -/
def cxEvaluateLines (maxBranches : Nat) (lines : List Line) : List RIssue :=
  cxGo maxBranches false [] 0 0 1 lines

/-! ### FunctionLengthRule (`NexaTest/rules/function_length_rule.py`) -/

/-- The loop state of `FunctionLengthRule.evaluate`: `in_func`,
`func_start` (1-based line number of the `def` line), `func_indent`,
`func_name` and the running line `count`. -/
structure FLState where
  inFunc : Bool
  funcStart : Nat
  funcIndent : Nat
  funcName : Line
  count : Nat
deriving DecidableEq, Repr

/-- Initial state of `FunctionLengthRule.evaluate`. -/
def flInit : FLState :=
  { inFunc := false, funcStart := 0, funcIndent := 0, funcName := [], count := 0 }

/-- The message `f"Function '{func_name}' exceeds {self.MAX_LINES} lines"`. -/
def flMsg (name : Line) (maxLines : Nat) : Line :=
  strLit "Function '" ++ name ++ strLit "' exceeds " ++ natLit maxLines ++
    strLit " lines"

/-- The function-length issue for the function named `name` starting at
1-based line `start`. -/
def flIssue (name : Line) (maxLines : Nat) (start : Nat) : RIssue :=
  { rule := strLit "FUNCTION_LENGTH", message := flMsg name maxLines,
    line := some start, severity := strLit "error" }

/-- One iteration of the `for i, line in enumerate(lines, start=1)` loop
of `FunctionLengthRule.evaluate`: the `def `/dedent state update,
followed by the count increment and threshold check. -/
def flStep (maxLines : Nat) (s : FLState) (i : Nat) (l : Line) :
    FLState × List RIssue :=
  let stripped := pyLStrip l
  let indent := l.length - stripped.length
  let s1 :=
    if (strLit "def ").isPrefixOf stripped then
      { inFunc := true, funcStart := i, funcIndent := indent,
        funcName := fnName stripped, count := 0 }
    else if s.inFunc ∧ indent ≤ s.funcIndent then
      { s with inFunc := false }
    else s
  if s1.inFunc then
    let s2 := { s1 with count := s1.count + 1 }
    if maxLines < s2.count then
      ({ s2 with inFunc := false }, [flIssue s2.funcName maxLines s2.funcStart])
    else (s2, [])
  else (s1, [])

/-- The full loop of `FunctionLengthRule.evaluate` from 1-based line
number `i`, returning the final state and the issues in emission order. -/
def flRun (maxLines : Nat) (s : FLState) (i : Nat) :
    List Line → FLState × List RIssue
  | [] => (s, [])
  | l :: rest =>
    let step := flStep maxLines s i l
    let further := flRun maxLines step.1 (i + 1) rest
    (further.1, step.2 ++ further.2)

/-- `FunctionLengthRule.evaluate` (threshold `MAX_LINES`, default 50) on
the `splitlines` of the code. -/
def flEvaluateLines (maxLines : Nat) (lines : List Line) : List RIssue :=
  (flRun maxLines flInit 1 lines).2

/-! ### QualityAnalyzer (`ai_code_review/analyzers/quality_analyzer.py`)
with thresholds from `Config.py`: `MAX_FILE_LINES = 400`,
`MAX_FUNCTION_PARAMS = 5`, `MAX_FUNCTION_LINES = 50`. -/

/-- The body scan of `QualityAnalyzer.analyze` for a `def` line of
indentation `defIndent`: Python's
`for j in range(i+1, len(lines)): ...` carrying `func_length`,
`found_body` and `has_docstring`; returns the final value of `j`
together with `func_length` and `has_docstring`.  `j` is the index at
which the loop `break`s on a dedented line, or the last index of the
list when the loop runs to the end (Python leaves the loop variable at
its last assigned value).  The caller guarantees the scanned range is
non-empty. -/
def qaScan (defIndent : Nat) (fl : Nat) (fb : Bool) (hd : Bool) (j : Nat) :
    List Line → Nat × Nat × Bool
  | [] => (j - 1, fl, hd)
  | l :: rest =>
    let sub := pyStrip l
    if sub = [] then qaScan defIndent fl fb hd (j + 1) rest
    else if pyIndent l ≤ defIndent then (j, fl, hd)
    else
      let hd' := hd || (!fb && (dq3.isPrefixOf sub || sq3.isPrefixOf sub))
      qaScan defIndent (fl + 1) true hd' (j + 1) rest

/-- The parameter-count issues of `QualityAnalyzer.analyze` for the
stripped `def` line at 0-based index `i`: naive comma counting between
the first `(` and the last `)`. -/
def qaParamIssues (stripped : Line) (i : Nat) : List AIssue :=
  match List.findIdx? (fun c => c == '(') stripped,
        List.findIdx? (fun c => c == ')') stripped.reverse with
  | some startParen, some rIdx =>
    let endParen := stripped.length - 1 - rIdx
    let paramsStr := (stripped.take endParen).drop (startParen + 1)
    if pyStrip paramsStr ≠ [] ∧ 5 < paramsStr.count ',' + 1 then
      [{ type := strLit "quality", severity := strLit "medium",
         message := strLit "Too many parameters, consider using an object",
         line := some (i + 1) }]
    else []
  | _, _ => []

/-- The issues `QualityAnalyzer.analyze` produces for the `def` line `l`
at 0-based index `i` of `lines`: parameter check, then function length,
then docstring.  `none` models the `NameError` the source raises when
the `def` line is the last line of the file (the loop variable `j` is
then never assigned but is read afterwards). -/
def qaDefIssues (lines : List Line) (i : Nat) (l : Line) :
    Option (List AIssue) :=
  let stripped := pyStrip l
  let defIndent := l.length - (pyLStrip l).length
  if lines.drop (i + 1) = [] then none
  else
    let scanned := qaScan defIndent 0 false false (i + 1) (lines.drop (i + 1))
    let j := scanned.1
    let totalFuncLines := (if j < lines.length then j else lines.length) - i
    some (qaParamIssues stripped i ++
      (if 50 < totalFuncLines then
        [{ type := strLit "quality", severity := strLit "medium",
           message := strLit "Function too long, consider refactoring",
           line := some (i + 1) }]
       else []) ++
      (if !scanned.2.2 then
        [{ type := strLit "quality", severity := strLit "low",
           message := strLit "Missing docstring for function",
           line := some (i + 1) }]
       else []))

/-- The outer `for i, line in enumerate(lines)` loop of
`QualityAnalyzer.analyze` over the suffix `ls` of `lines` starting at
0-based index `i`. -/
def qaGo (lines : List Line) (i : Nat) : List Line → Option (List AIssue)
  | [] => some []
  | l :: rest =>
    let stripped := pyStrip l
    if (strLit "def ").isPrefixOf stripped ∧ (strLit ":").isSuffixOf stripped then
      match qaDefIssues lines i l with
      | none => none
      | some iss => (qaGo lines (i + 1) rest).map (fun tl => iss ++ tl)
    else qaGo lines (i + 1) rest

/-- `QualityAnalyzer.analyze` on the `splitlines` of the content:
large-file check then the per-`def` checks; `none` models the uncaught
`NameError` of a trailing `def` line. -/
def qaAnalyzeLines (lines : List Line) : Option (List AIssue) :=
  (qaGo lines 0 lines).map (fun iss =>
    (if 400 < lines.length then
      [{ type := strLit "quality", severity := strLit "medium",
         message := strLit "File too large, consider splitting into modules",
         line := none }]
     else []) ++ iss)

/-- The message of the function-length issue of `QualityAnalyzer`. -/
def qaTooLongMsg : Line := strLit "Function too long, consider refactoring"

/-! ### DuplicateCodeRule (`NexaTest/rules/duplicate_code_rule.py`) -/

/-- `Rule.get_lines` from `NexaTest/engine/rule_base.py`:
`(i + 1, line, line.strip())` for each line. -/
def getLines (lines : List Line) : List (Nat × Line × Line) :=
  (List.range lines.length).zipWith (fun i l => (i + 1, l, pyStrip l)) lines

/-- `seen[stripped].append(line_no)` on a `defaultdict(list)` whose item
order is insertion order: update the first entry with this key, or add
a new entry at the end. -/
def dupUpd (seen : List (Line × List Nat)) (k : Line) (n : Nat) :
    List (Line × List Nat) :=
  match seen with
  | [] => [(k, [n])]
  | (k', v) :: rest =>
    if k' = k then (k', v ++ [n]) :: rest else (k', v) :: dupUpd rest k n

/-- The filter `if stripped and not stripped.startswith("#")` of
`DuplicateCodeRule.evaluate`. -/
def dupKeep (stripped : Line) : Bool :=
  !stripped.isEmpty && !(strLit "#").isPrefixOf stripped

/-- The `seen` dict built by the first loop of
`DuplicateCodeRule.evaluate` over a list of `get_lines` triples. -/
def dupSeenFrom (seen : List (Line × List Nat)) :
    List (Nat × Line × Line) → List (Line × List Nat)
  | [] => seen
  | (n, _, stripped) :: rest =>
    if dupKeep stripped then
      dupSeenFrom (dupUpd seen stripped n) rest
    else
      dupSeenFrom seen rest

/-- The 1-based line numbers, in order, of the kept (non-blank,
non-comment) lines whose stripped text is `t`. -/
def dupOccurrences (lines : List Line) (t : Line) : List Nat :=
  ((getLines lines).filter (fun p => dupKeep p.2.2 && p.2.2 == t)).map
    (fun p => p.1)

/-- The message `f"Duplicate line appears {len(occurrences)} times"`. -/
def dupMsg (n : Nat) : Line :=
  strLit "Duplicate line appears " ++ natLit n ++ strLit " times"

/-- `DuplicateCodeRule.evaluate` (threshold `MIN_DUPLICATES`, default 3)
on the `splitlines` of the code: group kept lines by stripped text,
then one issue per group of multiplicity `≥ minDup`, at the first
occurrence's line number. -/
def dupEvaluateLines (minDup : Nat) (lines : List Line) : List RIssue :=
  ((dupSeenFrom [] (getLines lines)).filter
    (fun p => minDup ≤ p.2.length)).map
    (fun p =>
      { rule := strLit "DUPLICATE_CODE", message := dupMsg p.2.length,
        line := some (p.2.headD 0), severity := strLit "warning" })

/-- The value list stored under key `k` in the `seen` dict (empty when
the key is absent), reading the first matching entry. -/
def dupVals (seen : List (Line × List Nat)) (k : Line) : List Nat :=
  match seen.find? (fun p => p.1 == k) with
  | some p => p.2
  | none => []

/-- The line numbers of the kept lines with stripped text `k` among a
list of `get_lines` triples. -/
def dupOccBy (k : Line) (items : List (Nat × Line × Line)) : List Nat :=
  (items.filter (fun p => dupKeep p.2.2 && p.2.2 == k)).map (fun p => p.1)

/-! ### RuleEngine (`NexaTest/engine/rule_engine.py`)

A rule object is modelled by its identifier and its (configured)
evaluation; the `try/except` around `rule.evaluate(code)` is modelled by
letting the evaluation return either issues or the exception message
(`Except`), exactly the failure mode the engine guards against. -/

/-- The per-rule configuration dict: only its `"enabled"` key matters to
the engine (`cfg.get("enabled", True)`); threshold keys are consumed by
the rules themselves, inside `MRule.run`. -/
structure RCfg where
  enabled : Option Bool
deriving DecidableEq, Repr

/-- The empty config dict `{}` used when `self.config.get(rule.id, {})`
misses. -/
def emptyRCfg : RCfg := { enabled := none }

/-- A rule as the engine sees it: an `id` and the combined
`configure(cfg); evaluate(code)` call, which either returns issues or
raises (returns) an exception message. -/
structure MRule where
  id : Line
  run : RCfg → List Line → Except Line (List RIssue)

/-- The synthetic issue the engine builds from a rule failure:
`{"rule": rule.id, "message": f"Rule failed safely: {str(e)}",
"line": None, "severity": "info"}`. -/
def engineFailIssue (ruleId msg : Line) : RIssue :=
  { rule := ruleId, message := strLit "Rule failed safely: " ++ msg,
    line := none, severity := strLit "info" }

/-- `RuleEngine.analyze`: per enabled rule, run it and extend `findings`
with its issues, or with the single synthetic failure issue. -/
def engineAnalyze (config : Line → Option RCfg) (code : List Line) :
    List MRule → List RIssue
  | [] => []
  | r :: rest =>
    let cfg := (config r.id).getD emptyRCfg
    if cfg.enabled.getD true = false then engineAnalyze config code rest
    else
      (match r.run cfg code with
       | .ok iss => iss
       | .error e => [engineFailIssue r.id e]) ++ engineAnalyze config code rest

/-! ### ScoreEngine (`ai_code_review/reporting/score_engine.py`)
with `Config.INITIAL_FILE_SCORE = 100` and `Config.ISSUE_PENALTIES`. -/

/-- An issue as `ScoreEngine` reads it: possibly-missing `"type"` and
`"severity"` keys (`issue.get(..., default)`). -/
structure SIssue where
  type : Option Line
  severity : Option Line
deriving DecidableEq, Repr

/-- Python `str.lower()` restricted to ASCII letters (all the keys of the
penalty table are ASCII). -/
def pyLower (l : Line) : Line :=
  l.map (fun c => if 'A' ≤ c ∧ c ≤ 'Z' then Char.ofNat (c.toNat + 32) else c)

/-- The penalty `Config.ISSUE_PENALTIES[issue_type].get(severity, 0)`,
0 when `issue_type` is not a key of the table. -/
def penaltyLookup (t sv : Line) : Int :=
  if t = strLit "quality" then
    if sv = strLit "low" then -1
    else if sv = strLit "medium" then -3
    else if sv = strLit "high" then -5
    else 0
  else if t = strLit "security" then
    if sv = strLit "low" then -2
    else if sv = strLit "medium" then -5
    else if sv = strLit "high" then -10
    else 0
  else if t = strLit "performance" then
    if sv = strLit "low" then -2
    else if sv = strLit "medium" then -4
    else if sv = strLit "high" then -4
    else 0
  else 0

/-- The issue breakdown dict: keys `quality`, `security`, `performance`,
plus an `other` key only once `setdefault` has created it. -/
structure Breakdown where
  quality : Nat
  security : Nat
  performance : Nat
  other : Option Nat
deriving DecidableEq, Repr

/-- The zero breakdown `{"quality": 0, "security": 0, "performance": 0}`. -/
def zeroBreakdown : Breakdown :=
  { quality := 0, security := 0, performance := 0, other := none }

/-- One iteration of the loop in `ScoreEngine._calculate_file_metrics`:
normalize type and severity, update the breakdown, add the penalty. -/
def scoreStep (acc : Int × Breakdown) (issue : SIssue) : Int × Breakdown :=
  let t := pyLower (issue.type.getD (strLit "quality"))
  let sv := pyLower (issue.severity.getD (strLit "medium"))
  let bd := acc.2
  let bd' :=
    if t = strLit "quality" then { bd with quality := bd.quality + 1 }
    else if t = strLit "security" then { bd with security := bd.security + 1 }
    else if t = strLit "performance" then
      { bd with performance := bd.performance + 1 }
    else { bd with other := some (bd.other.getD 0 + 1) }
  (acc.1 + penaltyLookup t sv, bd')

/-- `ScoreEngine._calculate_file_metrics`: fold from score 100, then
floor the score at 0. -/
def calcFileMetrics (issues : List SIssue) : Int × Breakdown :=
  let r := issues.foldl scoreStep (100, zeroBreakdown)
  (max 0 r.1, r.2)

/-- `ScoreEngine.calculate_file_score`. -/
def calculateFileScore (issues : List SIssue) : Int :=
  (calcFileMetrics issues).1

/-- The dict returned by `ScoreEngine.calculate_project_score`. -/
structure ProjectScore where
  overallScore : Int
  averageFileScore : Int
  totalIssues : Nat
  issueBreakdown : Breakdown
deriving DecidableEq, Repr

/-- A file result as `calculate_project_score` reads it:
`result.get("issues", [])`, so possibly missing. -/
def resultIssues (r : Option (List SIssue)) : List SIssue := r.getD []

/-- `ScoreEngine.calculate_project_score`: the guarded empty-input case,
otherwise sum of per-file scores and issue counts, aggregated breakdown
(per-file `other` counts flow into the project's `other` key), and the
truncated mean as both overall and average score. -/
def calculateProjectScore (results : List (Option (List SIssue))) :
    ProjectScore :=
  match results with
  | [] =>
    { overallScore := 100, averageFileScore := 100, totalIssues := 0,
      issueBreakdown := zeroBreakdown }
  | _ :: _ =>
    let folded := results.foldl
      (fun (acc : Int × Nat × Breakdown) r =>
        let issues := resultIssues r
        let m := calcFileMetrics issues
        let pb := acc.2.2
        let fb := m.2
        let pb' :=
          { quality := pb.quality + fb.quality,
            security := pb.security + fb.security,
            performance := pb.performance + fb.performance,
            other := match fb.other with
              | none => pb.other
              | some k => some (pb.other.getD 0 + k) }
        (acc.1 + m.1, acc.2.1 + issues.length, pb'))
      (0, 0, zeroBreakdown)
    let avg := folded.1 / (results.length : Int)
    { overallScore := avg, averageFileScore := avg,
      totalIssues := folded.2.1, issueBreakdown := folded.2.2 }

/-! ### Structured single-function inputs

The function-length claims quantify over texts whose lines form a single
function: a `def` header followed by more-indented, non-blank body lines,
optionally closed by a dedented line.  The three predicates below state
exactly those shape conditions in terms of the embedded primitives. -/

/-- A function header: its stripped text starts with `def ` and ends
with `:` (the form both `FunctionLengthRule` and `QualityAnalyzer`
recognise). -/
def IsHeaderLine (l : Line) : Prop :=
  (strLit "def ").isPrefixOf (pyStrip l) = true ∧
    (strLit ":").isSuffixOf (pyStrip l) = true

/-- A body line of a function whose header has indentation `d`:
non-blank, more indented, and not itself a `def` line. -/
def IsBodyLine (d : Nat) (l : Line) : Prop :=
  pyStrip l ≠ [] ∧ (strLit "def ").isPrefixOf (pyLStrip l) = false ∧
    d < pyIndent l

/-- A dedented line closing a function whose header has indentation `d`:
non-blank, indentation `≤ d`, and not itself a `def` line. -/
def IsTailLine (d : Nat) (l : Line) : Prop :=
  pyStrip l ≠ [] ∧ (strLit "def ").isPrefixOf (pyLStrip l) = false ∧
    pyIndent l ≤ d

instance (l : Line) : Decidable (IsHeaderLine l) := by
  unfold IsHeaderLine; infer_instance

instance (d : Nat) (l : Line) : Decidable (IsBodyLine d l) := by
  unfold IsBodyLine; infer_instance

instance (d : Nat) (l : Line) : Decidable (IsTailLine d l) := by
  unfold IsTailLine; infer_instance

/-- The function-length issue of `QualityAnalyzer` at 1-based line `ln`. -/
def qaTooLongIssue (ln : Nat) : AIssue :=
  { type := strLit "quality", severity := strLit "medium",
    message := qaTooLongMsg, line := some ln }

/-- The penalty `_calculate_file_metrics` adds for one issue dict. -/
def issuePenalty (issue : SIssue) : Int :=
  penaltyLookup (pyLower (issue.type.getD (strLit "quality")))
    (pyLower (issue.severity.getD (strLit "medium")))

/-! ### Concrete inputs used by counterexamples and witnesses -/

/-- A function with ten real `if` branches and a docstring that contains
the text `for x in y:` on a line lying inside the `'''` block. -/
def cxDocInput : List Line :=
  strLit "def f():" ::
    strLit "    '''" :: strLit "    for x in y:" :: strLit "    '''" ::
    List.replicate 10 (strLit "    if a:")

/-- `cxDocInput` with the docstring's `for` line removed. -/
def cxDocInputRemoved : List Line :=
  strLit "def f():" :: strLit "    '''" :: strLit "    '''" ::
    List.replicate 10 (strLit "    if a:")

/-- Like `cxDocInput` but with a `\"\"\"` docstring, used by the amended
demonstration. -/
def cxDocDemo : List Line :=
  strLit "def g():" ::
    strLit "    \"\"\"" :: strLit "    for x in y:" :: strLit "    \"\"\"" ::
    List.replicate 10 (strLit "    if a:")

/-- `cxDocDemo` without the docstring's `for` line. -/
def cxDocDemoRemoved : List Line :=
  strLit "def g():" :: strLit "    \"\"\"" :: strLit "    \"\"\"" ::
    List.replicate 10 (strLit "    if a:")

/-- A nested `for` line whose raw text holds two `\"\"\"` delimiters (an
even, positive count): it opens and fully closes a one-line
triple-quoted string. -/
def perfEvenInput : List Line :=
  [strLit "for i in r:", strLit "    for j in [\"\"\"a\"\"\", b]:"]

/-- A function of exactly 51 lines, still open at end of file. -/
def fn51Eof : List Line :=
  strLit "def f():" :: List.replicate 50 (strLit "    pass")

/-- The same 51-line function closed by a dedented line. -/
def fn51Closed : List Line := fn51Eof ++ [strLit "x = 1"]

/-- A function of exactly 50 lines, still open at end of file. -/
def fn50Eof : List Line :=
  strLit "def f():" :: List.replicate 49 (strLit "    pass")

/-- The 50-line function closed by a dedented line. -/
def fn50Closed : List Line := fn50Eof ++ [strLit "x = 1"]

/-- The 51-line function with an empty line inserted between its first
and second body lines. -/
def fn51Blank : List Line :=
  strLit "def f():" :: strLit "    pass" :: strLit "" ::
    List.replicate 49 (strLit "    pass")

/-- Witness rule that succeeds with one finding. -/
def wNamingRule : MRule :=
  { id := strLit "NAMING_CONVENTION",
    run := fun _ _ => .ok
      [{ rule := strLit "NAMING_CONVENTION",
         message := strLit "Function name violates naming convention",
         line := some 1, severity := strLit "warning" }] }

/-- Witness rule that succeeds with one finding. -/
def wDocRule : MRule :=
  { id := strLit "DOCSTRING_MISSING",
    run := fun _ _ => .ok
      [{ rule := strLit "DOCSTRING_MISSING",
         message := strLit "Missing docstring", line := some 1,
         severity := strLit "info" }] }

/-- Witness rule whose evaluation raises. -/
def wBoomRule : MRule :=
  { id := strLit "BOOM",
    run := fun _ _ => .error (strLit "division by zero") }

/-- Witness configuration: no rule id is present, so every rule falls
back to the empty config dict and is enabled. -/
def wConfig : Line → Option RCfg := fun _ => none

/-- Witness code. -/
def wCode : List Line := [strLit "def BadName():", strLit "    pass"]

/-- Witness input for the duplicate-line claim: one stripped text
repeated exactly three times. -/
def wDupLines : List Line :=
  [strLit "x = 1", strLit "x = 1", strLit "x = 1"]

/-! ## Helper lemmas -/

theorem penaltyLookup_nonpos (t sv : Line) : penaltyLookup t sv ≤ 0 := by
  unfold penaltyLookup
  split_ifs <;> decide

theorem issuePenalty_nonpos (issue : SIssue) : issuePenalty issue ≤ 0 :=
  penaltyLookup_nonpos _ _

theorem issuePenalty_sum_nonpos (issues : List SIssue) :
    (issues.map issuePenalty).sum ≤ 0 := by
  induction issues with
  | nil => simp
  | cons i rest ih =>
    simp only [List.map_cons, List.sum_cons]
    have := issuePenalty_nonpos i
    omega

theorem scoreFold_fst (issues : List SIssue) :
    ∀ c bd, ((issues.foldl scoreStep (c, bd)).1 : Int) =
      c + (issues.map issuePenalty).sum := by
  induction issues with
  | nil => intro c bd; simp
  | cons i rest ih =>
    intro c bd
    have hstep : scoreStep (c, bd) i =
        (c + issuePenalty i, (scoreStep (c, bd) i).2) := rfl
    rw [List.foldl_cons, hstep, ih]
    simp only [List.map_cons, List.sum_cons]
    ring

theorem engineAnalyze_append (config : Line → Option RCfg) (code : List Line)
    (xs ys : List MRule) :
    engineAnalyze config code (xs ++ ys) =
      engineAnalyze config code xs ++ engineAnalyze config code ys := by
  induction xs with
  | nil => simp [engineAnalyze]
  | cons r rest ih =>
    simp only [List.cons_append, engineAnalyze]
    by_cases h : (((config r.id).getD emptyRCfg).enabled.getD true) = false
    · simp only [if_pos h]
      exact ih
    · simp only [if_neg h]
      rw [show (rest.append ys) = rest ++ ys from rfl, ih, List.append_assoc]

theorem secGo_mem (ls : List Line) :
    ∀ (i0 i : Nat) (line : Line) (q : AIssue), ls.get? i = some line →
      q ∈ secLineIssues (i0 + i) line → q ∈ secGo i0 ls := by
  induction ls with
  | nil => intro i0 i line q h; simp at h
  | cons l rest ih =>
    intro i0 i line q h hq
    match i with
    | 0 =>
      simp only [List.get?] at h
      cases h
      exact List.mem_append_left _ hq
    | Nat.succ k =>
      simp only [List.get?] at h
      refine List.mem_append_right _ (ih (i0 + 1) k line q h ?_)
      have : i0 + 1 + k = i0 + (k + 1) := by omega
      rw [this]
      exact hq

/-! ## Claims -/

/-- C7: `ScoreEngine.calculate_project_score` of an empty result list
returns overall score 100, average 100, zero issues and the all-zero
issue breakdown. -/
theorem project_score_empty :
    calculateProjectScore [] =
      { overallScore := 100, averageFileScore := 100, totalIssues := 0,
        issueBreakdown := zeroBreakdown } := rfl

/-- C8: on the single line `password = "abc123"` the security analyzer
reports exactly one high-severity security issue at line 1; on
`password = os.getenv("P")` (which contains the safe pattern
`os.getenv`) it reports none. -/
theorem security_credential_scenario :
    secAnalyzeLines [strLit "password = \"abc123\""] =
      [{ type := strLit "security", severity := strLit "high",
         message := strLit "Potential hardcoded credential detected",
         line := some 1 }] ∧
    secAnalyzeLines [strLit "password = os.getenv(\"P\")"] = [] := by
  decide

/-- C2: for every issue list, `calculate_file_score` equals 100 plus the
(non-positive) configured penalties, floored at 0, and hence always
lies in `[0, 100]`. -/
theorem file_score_bounds (issues : List SIssue) :
    calculateFileScore issues =
      max 0 (100 + (issues.map issuePenalty).sum) ∧
    0 ≤ calculateFileScore issues ∧ calculateFileScore issues ≤ 100 := by
  have h1 : calculateFileScore issues =
      max 0 (100 + (issues.map issuePenalty).sum) := by
    unfold calculateFileScore calcFileMetrics
    dsimp only
    rw [scoreFold_fst]
  refine ⟨h1, ?_, ?_⟩
  · rw [h1]; exact le_max_left _ _
  · rw [h1]
    have := issuePenalty_sum_nonpos issues
    exact max_le (by norm_num) (by omega)

/-- C3: a rule whose evaluation fails is converted by
`RuleEngine.analyze` into exactly one synthetic `info` issue carrying
the failure message, while all other enabled rules' findings are kept,
in rule order. -/
theorem engine_fault_isolation (config : Line → Option RCfg)
    (code : List Line) (pre post : List MRule) (bad : MRule) (msg : Line)
    (hEnabled : (((config bad.id).getD emptyRCfg).enabled.getD true) = true)
    (hFail : bad.run ((config bad.id).getD emptyRCfg) code = .error msg) :
    engineAnalyze config code (pre ++ bad :: post) =
      engineAnalyze config code pre ++
        engineFailIssue bad.id msg :: engineAnalyze config code post := by
  rw [engineAnalyze_append]
  congr 1
  simp only [engineAnalyze]
  rw [if_neg (by rw [hEnabled]; simp), hFail]
  rfl

/-- Witness for C3: with a succeeding rule before and after it, the
failing `wBoomRule` contributes exactly its synthetic issue. -/
theorem engine_fault_isolation_witness :
    (((wConfig wBoomRule.id).getD emptyRCfg).enabled.getD true) = true ∧
    engineAnalyze wConfig wCode ([wNamingRule] ++ wBoomRule :: [wDocRule]) =
      engineAnalyze wConfig wCode [wNamingRule] ++
        engineFailIssue wBoomRule.id (strLit "division by zero") ::
          engineAnalyze wConfig wCode [wDocRule] :=
  ⟨rfl,
   engine_fault_isolation wConfig wCode [wNamingRule] [wDocRule] wBoomRule
     (strLit "division by zero") rfl rfl⟩

/-- C10: the safe-pattern allow-list never suppresses risky-call
findings: any line containing a configured risky call yields a
high-severity security issue at that line (whatever else the line
contains), and one line yields one issue per matching risky call plus,
when no safe pattern is present, one per matching credential pattern. -/
theorem risky_call_not_suppressed :
    (∀ (lines : List Line) (i : Nat) (line call : Line),
      lines.get? i = some line → call ∈ riskyCalls →
      containsSeq call line = true →
      { type := strLit "security", severity := strLit "high",
        message := riskyMsg call, line := some (i + 1) } ∈
        secAnalyzeLines lines) ∧
    secAnalyzeLines [strLit "password = eval(exec(1)) + os.getenv(\"K\")"] =
      [{ type := strLit "security", severity := strLit "high",
         message := riskyMsg (strLit "eval("), line := some 1 },
       { type := strLit "security", severity := strLit "high",
         message := riskyMsg (strLit "exec("), line := some 1 }] ∧
    secAnalyzeLines [strLit "password = eval(exec(1))"] =
      [{ type := strLit "security", severity := strLit "high",
         message := riskyMsg (strLit "eval("), line := some 1 },
       { type := strLit "security", severity := strLit "high",
         message := riskyMsg (strLit "exec("), line := some 1 },
       { type := strLit "security", severity := strLit "high",
         message := strLit "Potential hardcoded credential detected",
         line := some 1 }] := by
  refine ⟨?_, by decide, by decide⟩
  intro lines i line call hget hcall hcontains
  have hmem : (⟨strLit "security", strLit "high",
        riskyMsg call, some (0 + i + 1)⟩ : AIssue) ∈
      secLineIssues (0 + i) line := by
    refine List.mem_append_left _ ?_
    exact List.mem_map.mpr
      ⟨call, List.mem_filter.mpr ⟨hcall, by simpa using hcontains⟩, rfl⟩
  have := secGo_mem lines 0 i line _ hget hmem
  simpa using this

/-- Witness for C10: the line `eval(password) = os.getenv("K")` contains
the risky call `eval(` and the safe pattern `os.getenv`, and the risky
issue is still reported at line 1. -/
theorem risky_call_not_suppressed_witness :
    ({ type := strLit "security", severity := strLit "high",
       message := riskyMsg (strLit "eval("), line := some 1 } : AIssue) ∈
      secAnalyzeLines [strLit "eval(password) = os.getenv(\"K\")"] :=
  risky_call_not_suppressed.1
    [strLit "eval(password) = os.getenv(\"K\")"] 0
    (strLit "eval(password) = os.getenv(\"K\")") (strLit "eval(")
    (by decide) (by decide) (by decide)

/-- C4 (code bug): a 51-line function still open at end of file yields
no function-length issue from `QualityAnalyzer.analyze` (its span is
measured one line short at EOF), although the same 51-line function
closed by a dedented line yields exactly one, and
`FunctionLengthRule.evaluate` yields exactly one in both cases; a
50-line function yields none anywhere. -/
theorem quality_eof_function_length_gap :
    (qaAnalyzeLines fn51Eof).map
        (fun iss => iss.filter (fun q => q.message == qaTooLongMsg)) =
      some [] ∧
    (qaAnalyzeLines fn51Closed).map
        (fun iss => iss.filter (fun q => q.message == qaTooLongMsg)) =
      some [qaTooLongIssue 1] ∧
    (qaAnalyzeLines fn50Eof).map
        (fun iss => iss.filter (fun q => q.message == qaTooLongMsg)) =
      some [] ∧
    (qaAnalyzeLines fn50Closed).map
        (fun iss => iss.filter (fun q => q.message == qaTooLongMsg)) =
      some [] ∧
    flEvaluateLines 50 fn51Eof = [flIssue (strLit "f") 50 1] ∧
    flEvaluateLines 50 fn51Closed = [flIssue (strLit "f") 50 1] ∧
    flEvaluateLines 50 fn50Eof = [] ∧
    flEvaluateLines 50 fn50Closed = [] := by
  refine ⟨by decide, by decide, by decide, by decide, by decide, by decide,
    by decide, by decide⟩

/-- Counterexample for C5: inserting an empty line between two body
lines of a 51-line function makes `FunctionLengthRule.evaluate` lose its
issue entirely — the empty line terminates the inferred span. -/
theorem blank_line_changes_function_span :
    flEvaluateLines 50 fn51Eof = [flIssue (strLit "f") 50 1] ∧
    flEvaluateLines 50 fn51Blank = [] := by
  refine ⟨by decide, by decide⟩

theorem perfStep_issues_line (s : PerfState) (i : Nat) (l : Line) :
    ∀ q ∈ (perfStep s i l).2, q.line = some (i + 1) := by
  intro q hq
  unfold perfStep at hq
  dsimp only at hq
  split at hq
  · simp at hq
  · split at hq
    · simp at hq
    · split at hq
      · simp at hq
      · split at hq
        · simp at hq
        · split at hq
          · simp at hq
          · split at hq
            · split at hq
              · simp at hq
                rw [hq]
                rfl
              · simp at hq
            · simp at hq

theorem perfStep_inBlock_nil (s : PerfState) (i : Nat) (l : Line)
    (h : s.inBlock = true) : (perfStep s i l).2 = [] := by
  unfold perfStep
  dsimp only
  rw [h]
  split
  · rfl
  · rfl

theorem perfGo_line_exists (ls : List Line) :
    ∀ s i q, q ∈ perfGo s i ls →
      ∃ k, k < ls.length ∧ q.line = some (i + k + 1) := by
  induction ls with
  | nil => intro s i q hq; simp [perfGo] at hq
  | cons l rest ih =>
    intro s i q hq
    rw [perfGo] at hq
    rcases List.mem_append.mp hq with h | h
    · exact ⟨0, by simp, perfStep_issues_line s i l q h⟩
    · obtain ⟨k, hk, hline⟩ := ih (perfStep s i l).1 (i + 1) q h
      exact ⟨k + 1, by simp; omega, by rw [hline]; congr 1; omega⟩

theorem perfGo_inBlock (ls : List Line) :
    ∀ s i k q, (perfStateGo s i ls k).inBlock = true →
      q ∈ perfGo s i ls → q.line ≠ some (i + k + 1) := by
  induction ls with
  | nil => intro s i k q _ hq; simp [perfGo] at hq
  | cons l rest ih =>
    intro s i k q hstate hq
    rw [perfGo] at hq
    match k with
    | 0 =>
      rw [perfStateGo] at hstate
      rw [perfStep_inBlock_nil s i l hstate, List.nil_append] at hq
      obtain ⟨k', _, hline⟩ := perfGo_line_exists rest (perfStep s i l).1 (i + 1) q hq
      rw [hline]
      intro hcontra
      have := Option.some.inj hcontra
      omega
    | Nat.succ k' =>
      rw [perfStateGo] at hstate
      rcases List.mem_append.mp hq with h | h
      · rw [perfStep_issues_line s i l q h]
        intro hcontra
        have := Option.some.inj hcontra
        omega
      · have := ih (perfStep s i l).1 (i + 1) k' q hstate h
        intro hcontra
        apply this
        rw [hcontra]
        congr 1
        omega

/-- Counterexample for C1: `ComplexityRule` has no multiline-string
tracking.  In `cxDocInput` the line `    for x in y:` lies inside a
`'''` block (the lexical scanner is in-block on entering it) and its
stripped text starts with `for `, yet with ten real branches present it
tips the branch count to 11 and produces a Complexity finding; deleting
just that line removes the finding. -/
theorem complexity_counts_docstring_for :
    (perfStateBefore cxDocInput 2).inBlock = true ∧
    (strLit "for ").isPrefixOf (pyStrip (strLit "    for x in y:")) = true ∧
    cxEvaluateLines 10 cxDocInput = [cxIssue (strLit "f") 11 1] ∧
    cxEvaluateLines 10 cxDocInputRemoved = [] := by
  refine ⟨by decide, by decide, by decide, by decide⟩

/-- C1 (amended): a line scanned while `PerformanceAnalyzer`'s lexical
state is inside a triple-quoted block produces no issue of any kind at
that line; `ComplexityRule.evaluate`, however, does no string tracking,
so such a `for ` line still increments the branch count and can cause a
Complexity finding (demonstrated on `cxDocDemo`). -/
theorem multiline_string_suppression :
    (∀ (lines : List Line) (k : Nat),
      (perfStateBefore lines k).inBlock = true →
      (perfAnalyzeLines lines).filter (fun q => q.line == some (k + 1)) = []) ∧
    ((perfStateBefore cxDocDemo 2).inBlock = true ∧
     cxEvaluateLines 10 cxDocDemo = [cxIssue (strLit "g") 11 1] ∧
     cxEvaluateLines 10 cxDocDemoRemoved = []) := by
  constructor
  · intro lines k h
    rw [List.filter_eq_nil_iff]
    intro q hq
    have hne := perfGo_inBlock lines perfInit 0 k q h hq
    simp only [beq_iff_eq]
    simpa using hne
  · exact ⟨by decide, by decide, by decide⟩

/-- Witness for C1: on `cxDocInput`, whose line of index 2 is scanned
in-block, the performance analyzer emits no issue at line 3. -/
theorem multiline_string_suppression_witness :
    (perfAnalyzeLines cxDocInput).filter (fun q => q.line == some 3) = [] :=
  multiline_string_suppression.1 cxDocInput 2 (by decide)

/-- Counterexample for C6: the line `    for j in ["""a""", b]:` opens
and fully closes a one-line triple-quoted string (its `"""` count is 2,
even and positive), the scanner is in state Code, and the line is NOT
excluded: it produces a nested-loop issue at line 2, and the state
stays Code afterwards. -/
theorem even_quote_line_produces_issue :
    countSeq dq3 (strLit "    for j in [\"\"\"a\"\"\", b]:") = 2 ∧
    perfAnalyzeLines perfEvenInput = [nestedLoopIssue 1] ∧
    (perfStateBefore perfEvenInput 2).inBlock = false := by
  refine ⟨by decide, by decide, by decide⟩

/-- C6 (amended): a non-blank line with even counts of both triple-quote
delimiters, scanned while not inside a string block, is treated as
ordinary code: the lexical state stays Code, and if (after stripping an
inline comment) it is a `for ...:` line whose popped loop stack is
non-empty, it produces exactly the nested-loop issue at its own line. -/
theorem even_quote_line_is_code (s : PerfState) (i : Nat) (l : Line)
    (hBlock : s.inBlock = false)
    (hNonblank : pyStrip l ≠ [])
    (hdq : countSeq dq3 l % 2 = 0)
    (hsq : countSeq sq3 l % 2 = 0) :
    (perfStep s i l).1.inBlock = false ∧
    ((strLit "#").isPrefixOf (pyStrip l) = false →
     (strLit "for ").isPrefixOf
        (pyStrip (l.takeWhile (fun c => ¬ c == '#'))) = true →
     (strLit ":").isSuffixOf
        (pyStrip (l.takeWhile (fun c => ¬ c == '#'))) = true →
     s.loopStack.dropWhile
        (fun top => l.length - (pyStrip l).length ≤ top) ≠ [] →
     (perfStep s i l).2 = [nestedLoopIssue i]) := by
  unfold perfStep
  dsimp only
  rw [if_neg hNonblank, hBlock]
  rw [if_neg (by omega : ¬ countSeq dq3 l % 2 = 1)]
  rw [if_neg (by omega : ¬ countSeq sq3 l % 2 = 1)]
  simp only [Bool.false_eq_true, if_false]
  constructor
  · repeat' split
    all_goals first | rfl | exact hBlock
  · intro hHash hFor hSuf hStack
    rw [if_neg (by simp [hHash])]
    rw [if_pos ⟨hFor, hSuf⟩, if_pos hStack]

/-- Witness for C6: the concrete even-count `for` line, scanned in state
Code above an open loop of indent 0, keeps the state Code and produces
the nested-loop issue. -/
theorem even_quote_line_is_code_witness :
    (countSeq dq3 (strLit "    for j in [\"\"\"a\"\"\", b]:") % 2 = 0) ∧
    ((perfStep ⟨[0], false, none⟩ 1
        (strLit "    for j in [\"\"\"a\"\"\", b]:")).1.inBlock = false ∧
     ((strLit "#").isPrefixOf
        (pyStrip (strLit "    for j in [\"\"\"a\"\"\", b]:")) = false →
      (strLit "for ").isPrefixOf
        (pyStrip ((strLit "    for j in [\"\"\"a\"\"\", b]:").takeWhile
          (fun c => ¬ c == '#'))) = true →
      (strLit ":").isSuffixOf
        (pyStrip ((strLit "    for j in [\"\"\"a\"\"\", b]:").takeWhile
          (fun c => ¬ c == '#'))) = true →
      (([0] : List Nat)).dropWhile
        (fun top => (strLit "    for j in [\"\"\"a\"\"\", b]:").length -
          (pyStrip (strLit "    for j in [\"\"\"a\"\"\", b]:")).length ≤ top) ≠ [] →
      (perfStep ⟨[0], false, none⟩ 1
        (strLit "    for j in [\"\"\"a\"\"\", b]:")).2 = [nestedLoopIssue 1])) :=
  ⟨by decide,
   even_quote_line_is_code ⟨[0], false, none⟩ 1
     (strLit "    for j in [\"\"\"a\"\"\", b]:") rfl (by decide) (by decide)
     (by decide)⟩

theorem defPrefix_strip_of_lstrip (l : Line)
    (h : (strLit "def ").isPrefixOf (pyLStrip l) = false) :
    (strLit "def ").isPrefixOf (pyStrip l) = false := by
  cases hp : (strLit "def ").isPrefixOf (pyStrip l)
  · rfl
  · exfalso
    have h1 : strLit "def " <+: pyStrip l := List.isPrefixOf_iff_prefix.mp hp
    have h2 : pyStrip l <+: pyLStrip l :=
      show List.rdropWhile pyIsSpace (pyLStrip l) <+: pyLStrip l from
        List.rdropWhile_prefix _ _
    have h3 := List.isPrefixOf_iff_prefix.mpr (h1.trans h2)
    rw [h] at h3
    exact absurd h3 (by simp)

theorem flStep_notFunc (maxL : Nat) (s : FLState) (i : Nat) (l : Line)
    (hs : s.inFunc = false)
    (hpref : (strLit "def ").isPrefixOf (pyLStrip l) = false) :
    flStep maxL s i l = (s, []) := by
  simp [flStep, hpref, hs]

theorem flStep_bodyLine (maxL st fi : Nat) (nm : Line) (c i : Nat) (l : Line)
    (hpref : (strLit "def ").isPrefixOf (pyLStrip l) = false)
    (hind : fi < pyIndent l) :
    flStep maxL ⟨true, st, fi, nm, c⟩ i l =
      (if maxL < c + 1 then
        (⟨false, st, fi, nm, c + 1⟩, [flIssue nm maxL st])
       else (⟨true, st, fi, nm, c + 1⟩, [])) := by
  have hle : (pyLStrip l).length ≤ l.length := (List.dropWhile_sublist _).length_le
  have hNF : ¬ (l.length ≤ fi + (pyLStrip l).length) := by
    have : pyIndent l = l.length - (pyLStrip l).length := rfl
    omega
  simp [flStep, hpref, hNF]

theorem flStep_header (maxL : Nat) (s : FLState) (i : Nat) (hdr : Line)
    (h : (strLit "def ").isPrefixOf (pyLStrip hdr) = true)
    (hm : 1 ≤ maxL) :
    flStep maxL s i hdr =
      (⟨true, i, pyIndent hdr, fnName (pyLStrip hdr), 1⟩, []) := by
  have hm' : ¬ (maxL < 0 + 1) := by omega
  simp [flStep, h, hm']
  rfl

theorem flStep_endFunc (maxL : Nat) (s : FLState) (i : Nat) (l : Line)
    (hs : s.inFunc = true)
    (hpref : (strLit "def ").isPrefixOf (pyLStrip l) = false)
    (hind : pyIndent l ≤ s.funcIndent) :
    flStep maxL s i l = ({ s with inFunc := false }, []) := by
  have hle : (pyLStrip l).length ≤ l.length := (List.dropWhile_sublist _).length_le
  have hNF : l.length ≤ s.funcIndent + (pyLStrip l).length := by
    have : pyIndent l = l.length - (pyLStrip l).length := rfl
    omega
  simp [flStep, hpref, hs, hNF]


theorem flRun_dead (maxL : Nat) : ∀ (ls : List Line) (s : FLState) (i : Nat),
    s.inFunc = false →
    (∀ l ∈ ls, (strLit "def ").isPrefixOf (pyLStrip l) = false) →
    flRun maxL s i ls = (s, []) := by
  intro ls
  induction ls with
  | nil => intro s i _ _; rfl
  | cons l rest ih =>
    intro s i hs hall
    rw [flRun]
    rw [flStep_notFunc maxL s i l hs (hall l (List.mem_cons_self l rest)),
      ih s (i + 1) hs (fun l' hl' => hall l' (List.mem_cons_of_mem l hl'))]
    rfl

theorem flRun_append (maxL : Nat) : ∀ (xs ys : List Line) (s : FLState) (i : Nat),
    flRun maxL s i (xs ++ ys) =
      ((flRun maxL (flRun maxL s i xs).1 (i + xs.length) ys).1,
       (flRun maxL s i xs).2 ++
         (flRun maxL (flRun maxL s i xs).1 (i + xs.length) ys).2) := by
  intro xs
  induction xs with
  | nil => intro ys s i; simp [flRun]
  | cons l rest ih =>
    intro ys s i
    simp only [List.cons_append, flRun]
    rw [show (rest.append ys) = rest ++ ys from rfl,
      ih ys (flStep maxL s i l).1 (i + 1)]
    simp only [List.length_cons, List.append_assoc]
    rw [show i + 1 + rest.length = i + (rest.length + 1) from by omega]

theorem flRun_body (maxL : Nat) : ∀ (body : List Line) (st fi : Nat)
    (nm : Line) (c i : Nat),
    (∀ l ∈ body, IsBodyLine fi l) → c ≤ maxL →
    flRun maxL ⟨true, st, fi, nm, c⟩ i body =
      (if maxL < c + body.length then
        (⟨false, st, fi, nm, maxL + 1⟩, [flIssue nm maxL st])
       else (⟨true, st, fi, nm, c + body.length⟩, [])) := by
  intro body
  induction body with
  | nil =>
    intro st fi nm c i _ hc
    rw [if_neg (by simp; omega)]
    simp [flRun]
  | cons l rest ih =>
    intro st fi nm c i hall hc
    obtain ⟨hnb, hpref, hind⟩ := hall l (List.mem_cons_self l rest)
    have hrest : ∀ l' ∈ rest, IsBodyLine fi l' :=
      fun l' hl' => hall l' (List.mem_cons_of_mem l hl')
    have hrestPref : ∀ l' ∈ rest,
        (strLit "def ").isPrefixOf (pyLStrip l') = false :=
      fun l' hl' => (hrest l' hl').2.1
    rw [flRun]
    rw [flStep_bodyLine maxL st fi nm c i l hpref hind]
    by_cases hover : maxL < c + 1
    · rw [if_pos hover]
      dsimp only
      rw [flRun_dead maxL rest ⟨false, st, fi, nm, c + 1⟩ (i + 1) rfl
        hrestPref]
      rw [if_pos (by simp only [List.length_cons]; omega)]
      have hceq : c = maxL := by omega
      rw [hceq]
      simp
    · rw [if_neg hover]
      dsimp only
      rw [ih st fi nm (c + 1) (i + 1) hrest (by omega)]
      simp only [List.length_cons]
      by_cases h2 : maxL < c + (rest.length + 1)
      · rw [if_pos (by omega), if_pos h2]
        simp
      · rw [if_neg (by omega), if_neg h2]
        simp
        omega

theorem defPrefix_lstrip_of_strip (l : Line)
    (h : (strLit "def ").isPrefixOf (pyStrip l) = true) :
    (strLit "def ").isPrefixOf (pyLStrip l) = true := by
  cases hp : (strLit "def ").isPrefixOf (pyLStrip l)
  · rw [defPrefix_strip_of_lstrip l hp] at h
    exact absurd h (by simp)
  · rfl

theorem qaScan_break (d : Nat) : ∀ (mid : List Line) (fl : Nat) (fb hd : Bool)
    (j : Nat) (t : Line) (rest : List Line),
    (∀ l ∈ mid, pyStrip l = [] ∨ d < pyIndent l) →
    pyStrip t ≠ [] → pyIndent t ≤ d →
    (qaScan d fl fb hd j (mid ++ t :: rest)).1 = j + mid.length := by
  intro mid
  induction mid with
  | nil =>
    intro fl fb hd j t rest _ hnb hle
    rw [List.nil_append, qaScan, if_neg hnb, if_pos hle]
    rfl
  | cons l mid' ih =>
    intro fl fb hd j t rest hall hnb hle
    have hall' : ∀ l' ∈ mid', pyStrip l' = [] ∨ d < pyIndent l' :=
      fun l' hl' => hall l' (List.mem_cons_of_mem l hl')
    rw [List.cons_append, qaScan]
    by_cases hb : pyStrip l = []
    · rw [if_pos hb, ih fl fb hd (j + 1) t rest hall' hnb hle]
      simp only [List.length_cons]
      omega
    · have hind : d < pyIndent l := (hall l (List.mem_cons_self l mid')).resolve_left hb
      rw [if_neg hb, if_neg (by omega)]
      rw [ih (fl + 1) true _ (j + 1) t rest hall' hnb hle]
      simp only [List.length_cons]
      omega

theorem qaGo_skip (lines : List Line) : ∀ (ls : List Line) (i : Nat),
    (∀ l ∈ ls, (strLit "def ").isPrefixOf (pyStrip l) = false) →
    qaGo lines i ls = some [] := by
  intro ls
  induction ls with
  | nil => intro i _; rfl
  | cons l rest ih =>
    intro i hall
    rw [qaGo]
    rw [if_neg (by simp [hall l (List.mem_cons_self l rest)])]
    exact ih (i + 1) (fun l' hl' => hall l' (List.mem_cons_of_mem l hl'))

theorem qaParam_filter (s0 : Line) (i : Nat) :
    (qaParamIssues s0 i).filter (fun q => q.message == qaTooLongMsg) = [] := by
  unfold qaParamIssues
  split
  · dsimp only
    split
    · simp [List.filter_cons,
        show ((strLit "Too many parameters, consider using an object" : Line) ==
          qaTooLongMsg) = false from by decide]
    · rfl
  · rfl

theorem filter_msg_ite (c : Prop) [Decidable c] (x : AIssue)
    (h : (x.message == qaTooLongMsg) = false) :
    (if c then [x] else []).filter (fun q => q.message == qaTooLongMsg) = [] := by
  split <;> simp [List.filter_cons, h]

theorem filter_msg_ite_keep (c : Prop) [Decidable c] (x : AIssue)
    (h : (x.message == qaTooLongMsg) = true) :
    (if c then [x] else []).filter (fun q => q.message == qaTooLongMsg) =
      (if c then [x] else []) := by
  split <;> simp [List.filter_cons, h]

theorem qaDefIssues_cons (hdr : Line) (rest0 : List Line) (hne : ¬ rest0 = []) :
    qaDefIssues (hdr :: rest0) 0 hdr =
      some (qaParamIssues (pyStrip hdr) 0 ++
        (if 50 < (if (qaScan (hdr.length - (pyLStrip hdr).length) 0 false
              false (0 + 1) rest0).1 < (hdr :: rest0).length then
            (qaScan (hdr.length - (pyLStrip hdr).length) 0 false false
              (0 + 1) rest0).1
           else (hdr :: rest0).length) - 0 then
          [{ type := strLit "quality", severity := strLit "medium",
             message := qaTooLongMsg, line := some (0 + 1) }]
         else []) ++
        (if !(qaScan (hdr.length - (pyLStrip hdr).length) 0 false false
            (0 + 1) rest0).2.2 then
          [{ type := strLit "quality", severity := strLit "low",
             message := strLit "Missing docstring for function",
             line := some (0 + 1) }]
         else [])) := by
  unfold qaDefIssues
  simp only [List.drop_succ_cons, List.drop_zero]
  rw [if_neg hne]
  rfl

theorem qaAnalyze_single (hdr : Line) (rest0 : List Line)
    (hH : IsHeaderLine hdr)
    (hRest : ∀ l ∈ rest0, (strLit "def ").isPrefixOf (pyStrip l) = false)
    (hne : ¬ rest0 = []) :
    (qaAnalyzeLines (hdr :: rest0)).map
      (fun iss => iss.filter (fun q => q.message == qaTooLongMsg)) =
    some (if 50 < (if (qaScan (hdr.length - (pyLStrip hdr).length) 0 false
          false (0 + 1) rest0).1 < (hdr :: rest0).length then
        (qaScan (hdr.length - (pyLStrip hdr).length) 0 false false (0 + 1)
          rest0).1
       else (hdr :: rest0).length) - 0 then
      [qaTooLongIssue 1] else []) := by
  unfold qaAnalyzeLines
  rw [qaGo]
  rw [if_pos (show (strLit "def ").isPrefixOf (pyStrip hdr) = true ∧
    (strLit ":").isSuffixOf (pyStrip hdr) = true from ⟨hH.1, hH.2⟩)]
  rw [qaDefIssues_cons hdr rest0 hne, qaGo_skip (hdr :: rest0) rest0 1 hRest]
  dsimp only [Option.map]
  rw [List.append_nil]
  simp only [List.filter_append]
  rw [qaParam_filter]
  rw [filter_msg_ite _ ({ type := strLit "quality", severity := strLit "medium", message := strLit "File too large, consider splitting into modules", line := none }) (by decide)]
  rw [filter_msg_ite_keep _ ({ type := strLit "quality", severity := strLit "medium", message := qaTooLongMsg, line := some (0 + 1) }) (by decide)]
  rw [filter_msg_ite _ ({ type := strLit "quality", severity := strLit "low", message := strLit "Missing docstring for function", line := some (0 + 1) }) (by decide)]
  simp
  rfl

theorem flRun_cons (maxL : Nat) (s : FLState) (i : Nat) (l : Line)
    (rest : List Line) :
    flRun maxL s i (l :: rest) =
      ((flRun maxL (flStep maxL s i l).1 (i + 1) rest).1,
       (flStep maxL s i l).2 ++
         (flRun maxL (flStep maxL s i l).1 (i + 1) rest).2) := rfl

/-- C5 (amended): a blank line inside a function body does not terminate
`QualityAnalyzer`'s body scan — the span still ends at the dedented
line — but it does count toward the physical span length used by the
function-length check, so inserting one can add an issue; in
`FunctionLengthRule.evaluate`, an empty inserted line terminates the
span at once, so the count stops at the lines before it. -/
theorem blank_line_span_behavior (hdr : Line) (b1 b2 : List Line)
    (blank tail : Line)
    (hH : IsHeaderLine hdr)
    (hb1 : ∀ l ∈ b1, IsBodyLine (pyIndent hdr) l)
    (hb2 : ∀ l ∈ b2, IsBodyLine (pyIndent hdr) l)
    (hblank : pyStrip blank = [])
    (ht : IsTailLine (pyIndent hdr) tail) :
    (qaAnalyzeLines (hdr :: (b1 ++ blank :: b2 ++ [tail]))).map
        (fun iss => iss.filter (fun q => q.message == qaTooLongMsg)) =
      some (if 50 < 1 + b1.length + 1 + b2.length then [qaTooLongIssue 1]
        else []) ∧
    flEvaluateLines 50 (hdr :: (b1 ++ ([] : Line) :: b2 ++ [tail])) =
      (if 50 < 1 + b1.length then [flIssue (fnName (pyLStrip hdr)) 50 1]
       else []) := by
  have hEmptyPref : (strLit "def ").isPrefixOf (pyLStrip ([] : Line)) = false := by
    decide
  have hBlankPref : (strLit "def ").isPrefixOf (pyStrip blank) = false := by
    rw [hblank]
    decide
  constructor
  · -- QualityAnalyzer part
    have hRest : ∀ l ∈ b1 ++ blank :: b2 ++ [tail],
        (strLit "def ").isPrefixOf (pyStrip l) = false := by
      intro l hl
      rcases List.mem_append.mp hl with h1 | h2
      · rcases List.mem_append.mp h1 with h3 | h4
        · exact defPrefix_strip_of_lstrip l (hb1 l h3).2.1
        · rcases List.mem_cons.mp h4 with he | h5
          · rw [he]; exact hBlankPref
          · exact defPrefix_strip_of_lstrip l (hb2 l h5).2.1
      · rcases List.mem_cons.mp h2 with he | h6
        · rw [he]; exact defPrefix_strip_of_lstrip tail ht.2.1
        · simp at h6
    have hne : ¬ (b1 ++ blank :: b2 ++ [tail]) = [] := by simp
    rw [qaAnalyze_single hdr (b1 ++ blank :: b2 ++ [tail]) hH hRest hne]
    have hskip : ∀ l ∈ b1 ++ blank :: b2,
        pyStrip l = [] ∨ (hdr.length - (pyLStrip hdr).length) < pyIndent l := by
      intro l hl
      rcases List.mem_append.mp hl with h3 | h4
      · exact Or.inr (hb1 l h3).2.2
      · rcases List.mem_cons.mp h4 with he | h5
        · exact Or.inl (he ▸ hblank)
        · exact Or.inr (hb2 l h5).2.2
    have hj := qaScan_break (hdr.length - (pyLStrip hdr).length)
      (b1 ++ blank :: b2) 0 false false (0 + 1) tail [] hskip ht.1 ht.2.2
    rw [hj]
    simp only [List.length_cons, List.length_append, List.length_nil]
    have hc1 : 0 + 1 + (b1.length + (b2.length + 1)) <
        b1.length + (b2.length + 1) + (0 + 1) + 1 := by omega
    rw [if_pos hc1]
    have hc2 : 0 + 1 + (b1.length + (b2.length + 1)) - 0 =
        1 + b1.length + 1 + b2.length := by omega
    rw [hc2]
  · -- FunctionLengthRule part
    have hHdrPref : (strLit "def ").isPrefixOf (pyLStrip hdr) = true :=
      defPrefix_lstrip_of_strip hdr hH.1
    have hDeadAll : ∀ l ∈ b2 ++ [tail],
        (strLit "def ").isPrefixOf (pyLStrip l) = false := by
      intro l hl
      rcases List.mem_append.mp hl with h3 | h4
      · exact (hb2 l h3).2.1
      · rcases List.mem_cons.mp h4 with he | h6
        · rw [he]; exact ht.2.1
        · simp at h6
    unfold flEvaluateLines
    rw [flRun]
    dsimp only
    rw [flStep_header 50 flInit 1 hdr hHdrPref (by omega)]
    rw [show (b1 ++ ([] : Line) :: b2 ++ [tail] : List Line) =
      b1 ++ (([] : Line) :: (b2 ++ [tail])) from by simp]
    rw [flRun_append 50 b1 (([] : Line) :: (b2 ++ [tail]))
      ⟨true, 1, pyIndent hdr, fnName (pyLStrip hdr), 1⟩ 2]
    rw [flRun_body 50 b1 1 (pyIndent hdr) (fnName (pyLStrip hdr)) 1 2 hb1
      (by omega)]
    by_cases hcase : 50 < 1 + b1.length
    · rw [if_pos hcase, if_pos hcase]
      dsimp only
      rw [flRun_cons]
      rw [flStep_notFunc 50 ⟨false, 1, pyIndent hdr,
        fnName (pyLStrip hdr), 50 + 1⟩ (2 + b1.length) ([] : Line) rfl
        hEmptyPref]
      rw [flRun_dead 50 (b2 ++ [tail]) ⟨false, 1, pyIndent hdr,
        fnName (pyLStrip hdr), 50 + 1⟩ (2 + b1.length + 1) rfl hDeadAll]
      rfl
    · rw [if_neg hcase, if_neg hcase]
      dsimp only
      rw [flRun_cons]
      rw [flStep_endFunc 50 ⟨true, 1, pyIndent hdr,
        fnName (pyLStrip hdr), 1 + b1.length⟩ (2 + b1.length) ([] : Line)
        rfl hEmptyPref (Nat.zero_le _)]
      rw [flRun_dead 50 (b2 ++ [tail]) ⟨false, 1, pyIndent hdr,
        fnName (pyLStrip hdr), 1 + b1.length⟩ (2 + b1.length + 1) rfl hDeadAll]
      rfl

/-- Witness for C5: a 50-line function with a blank line inserted after
its first 49 body lines.  The quality analyzer's physical span becomes
51 and an issue appears; the function-length rule's span ends at the
blank, so it reports nothing. -/
theorem blank_line_span_behavior_witness :
    (qaAnalyzeLines (strLit "def f():" ::
        (List.replicate 49 (strLit "    x") ++
          strLit "" :: ([] : List Line) ++ [strLit "y = 1"]))).map
        (fun iss => iss.filter (fun q => q.message == qaTooLongMsg)) =
      some [qaTooLongIssue 1] ∧
    flEvaluateLines 50 (strLit "def f():" ::
        (List.replicate 49 (strLit "    x") ++
          ([] : Line) :: ([] : List Line) ++ [strLit "y = 1"])) = [] :=
  blank_line_span_behavior (strLit "def f():")
    (List.replicate 49 (strLit "    x")) [] (strLit "") (strLit "y = 1")
    (by decide) (by decide) (by decide) (by decide) (by decide)

theorem dupUpd_mem_keys : ∀ (seen : List (Line × List Nat)) (k : Line)
    (n : Nat) (k' : Line),
    k' ∈ (dupUpd seen k n).map Prod.fst ↔
      k' ∈ seen.map Prod.fst ∨ k' = k := by
  intro seen
  induction seen with
  | nil => intro k n k'; simp [dupUpd]
  | cons e rest ih =>
    intro k n k'
    match e with
    | (k0, v) =>
      rw [dupUpd]
      by_cases h : k0 = k
      · rw [if_pos h]
        subst h
        simp
        tauto
      · rw [if_neg h]
        simp only [List.map_cons, List.mem_cons]
        rw [ih k n k']
        tauto

theorem dupUpd_keys_nodup : ∀ (seen : List (Line × List Nat)) (k : Line)
    (n : Nat),
    (seen.map Prod.fst).Nodup → ((dupUpd seen k n).map Prod.fst).Nodup := by
  intro seen
  induction seen with
  | nil => intro k n _; simp [dupUpd]
  | cons e rest ih =>
    intro k n hnd
    match e with
    | (k0, v) =>
      rw [dupUpd]
      simp only [List.map_cons, List.nodup_cons] at hnd
      by_cases h : k0 = k
      · rw [if_pos h]
        simp only [List.map_cons, List.nodup_cons]
        exact hnd
      · rw [if_neg h]
        simp only [List.map_cons, List.nodup_cons]
        refine ⟨?_, ih k n hnd.2⟩
        intro hmem
        rcases (dupUpd_mem_keys rest k n k0).mp hmem with h1 | h2
        · exact hnd.1 h1
        · exact h h2

theorem dupUpd_vals_same : ∀ (seen : List (Line × List Nat)) (k : Line)
    (n : Nat), dupVals (dupUpd seen k n) k = dupVals seen k ++ [n] := by
  intro seen
  induction seen with
  | nil => intro k n; simp [dupUpd, dupVals]
  | cons e rest ih =>
    intro k n
    match e with
    | (k0, v) =>
      rw [dupUpd]
      by_cases h : k0 = k
      · rw [if_pos h]
        unfold dupVals
        rw [List.find?_cons_of_pos _ (by simp [h]),
          List.find?_cons_of_pos _ (by simp [h])]
      · rw [if_neg h]
        unfold dupVals
        rw [List.find?_cons_of_neg _ (by simp [h]),
          List.find?_cons_of_neg _ (by simp [h])]
        exact ih k n

theorem dupUpd_vals_other : ∀ (seen : List (Line × List Nat)) (k : Line)
    (n : Nat) (k' : Line), k' ≠ k →
    dupVals (dupUpd seen k n) k' = dupVals seen k' := by
  intro seen
  induction seen with
  | nil =>
    intro k n k' hne
    have hbeq : (k == k') = false := by
      simp only [beq_eq_false_iff_ne]
      exact fun hc => hne hc.symm
    simp [dupUpd, dupVals, List.find?, hbeq]
  | cons e rest ih =>
    intro k n k' hne
    match e with
    | (k0, v) =>
      rw [dupUpd]
      by_cases h : k0 = k
      · rw [if_pos h]
        unfold dupVals
        rw [List.find?_cons_of_neg _ (by simp [h]; exact fun hc => hne hc.symm ),
          List.find?_cons_of_neg _ (by simp [h]; exact fun hc => hne hc.symm)]
      · rw [if_neg h]
        by_cases h2 : k0 = k'
        · unfold dupVals
          rw [List.find?_cons_of_pos _ (by simp [h2]),
            List.find?_cons_of_pos _ (by simp [h2])]
        · unfold dupVals
          rw [List.find?_cons_of_neg _ (by simp [h2]),
            List.find?_cons_of_neg _ (by simp [h2])]
          exact ih k n k' hne

theorem dupSeenFrom_vals : ∀ (items : List (Nat × Line × Line))
    (seen : List (Line × List Nat)) (k : Line),
    dupVals (dupSeenFrom seen items) k = dupVals seen k ++ dupOccBy k items := by
  intro items
  induction items with
  | nil => intro seen k; simp [dupSeenFrom, dupOccBy]
  | cons it rest ih =>
    intro seen k
    match it with
    | (n, l, str) =>
      rw [dupSeenFrom]
      by_cases hkeep : dupKeep str = true
      · rw [if_pos hkeep, ih]
        by_cases heq : str = k
        · subst heq
          rw [dupUpd_vals_same]
          rw [show dupOccBy str ((n, l, str) :: rest) =
            n :: dupOccBy str rest from by
              unfold dupOccBy
              rw [List.filter_cons_of_pos (by simp [hkeep])]
              rfl]
          simp
        · rw [dupUpd_vals_other seen str n k (fun hc => heq hc.symm)]
          rw [show dupOccBy k ((n, l, str) :: rest) = dupOccBy k rest from by
            unfold dupOccBy
            rw [List.filter_cons_of_neg (by simp [hkeep, heq])]]
      · rw [if_neg hkeep, ih]
        rw [show dupOccBy k ((n, l, str) :: rest) = dupOccBy k rest from by
          unfold dupOccBy
          rw [List.filter_cons_of_neg (by simp [hkeep])]]

theorem dupSeenFrom_keys_nodup : ∀ (items : List (Nat × Line × Line))
    (seen : List (Line × List Nat)),
    (seen.map Prod.fst).Nodup → ((dupSeenFrom seen items).map Prod.fst).Nodup := by
  intro items
  induction items with
  | nil => intro seen h; exact h
  | cons it rest ih =>
    intro seen h
    match it with
    | (n, l, str) =>
      rw [dupSeenFrom]
      split
      · exact ih _ (dupUpd_keys_nodup seen str n h)
      · exact ih _ h

theorem dupSeenFrom_keys_mono : ∀ (items : List (Nat × Line × Line))
    (seen : List (Line × List Nat)) (k : Line),
    k ∈ seen.map Prod.fst → k ∈ (dupSeenFrom seen items).map Prod.fst := by
  intro items
  induction items with
  | nil => intro seen k h; exact h
  | cons it rest ih =>
    intro seen k h
    match it with
    | (n, l, str) =>
      rw [dupSeenFrom]
      split
      · exact ih _ k ((dupUpd_mem_keys seen str n k).mpr (Or.inl h))
      · exact ih _ k h

theorem dupSeenFrom_keys_of_occ : ∀ (items : List (Nat × Line × Line))
    (seen : List (Line × List Nat)) (k : Line),
    dupOccBy k items ≠ [] →
    k ∈ (dupSeenFrom seen items).map Prod.fst := by
  intro items
  induction items with
  | nil => intro seen k h; simp [dupOccBy] at h
  | cons it rest ih =>
    intro seen k h
    match it with
    | (n, l, str) =>
      rw [dupSeenFrom]
      by_cases hhead : (dupKeep str && (str == k)) = true
      · rw [if_pos (by simp at hhead; exact hhead.1)]
        have hk : str = k := by simp at hhead; exact hhead.2
        subst hk
        exact dupSeenFrom_keys_mono rest _ str
          ((dupUpd_mem_keys seen str n str).mpr (Or.inr rfl))
      · have hrest : dupOccBy k rest ≠ [] := by
          unfold dupOccBy at h ⊢
          rw [List.filter_cons_of_neg (by simp_all)] at h
          exact h
        split
        · exact ih _ k hrest
        · exact ih _ k hrest

theorem dup_find_of_mem : ∀ (es : List (Line × List Nat))
    (e : Line × List Nat),
    (es.map Prod.fst).Nodup → e ∈ es →
    es.find? (fun p => p.1 == e.1) = some e := by
  intro es
  induction es with
  | nil => intro e _ h; simp at h
  | cons e0 rest ih =>
    intro e hnd hmem
    simp only [List.map_cons, List.nodup_cons] at hnd
    rcases List.mem_cons.mp hmem with he | hr
    · subst he
      exact List.find?_cons_of_pos _ (by simp)
    · have hne : e0.1 ≠ e.1 := by
        intro hc
        exact hnd.1 (hc ▸ List.mem_map.mpr ⟨e, hr, rfl⟩)
      rw [List.find?_cons_of_neg _ (by simp [hne])]
      exact ih e hnd.2 hr

theorem dup_entry_vals (es : List (Line × List Nat)) (e : Line × List Nat)
    (hnd : (es.map Prod.fst).Nodup) (hmem : e ∈ es) :
    dupVals es e.1 = e.2 := by
  unfold dupVals
  rw [dup_find_of_mem es e hnd hmem]

theorem dup_filter_singleton : ∀ (es : List (Line × List Nat)) (t : Line)
    (v : List Nat) (P : Line × List Nat → Bool),
    (es.map Prod.fst).Nodup → (t, v) ∈ es →
    (∀ e ∈ es, (P e = true ↔ e.1 = t)) →
    es.filter P = [(t, v)] := by
  intro es
  induction es with
  | nil => intro t v P _ h _; simp at h
  | cons e0 rest ih =>
    intro t v P hnd hmem hP
    simp only [List.map_cons, List.nodup_cons] at hnd
    by_cases h0 : e0.1 = t
    · have hPe0 : P e0 = true := (hP e0 (List.mem_cons_self e0 rest)).mpr h0
      rw [List.filter_cons_of_pos hPe0]
      have hrestnone : rest.filter P = [] := by
        rw [List.filter_eq_nil_iff]
        intro e he hPe
        have := (hP e (List.mem_cons_of_mem e0 he)).mp hPe
        exact hnd.1 (h0 ▸ this ▸ List.mem_map.mpr ⟨e, he, rfl⟩)
      rw [hrestnone]
      rcases List.mem_cons.mp hmem with he | hr
      · rw [← he]
      · exfalso
        exact hnd.1 (h0 ▸ List.mem_map.mpr ⟨(t, v), hr, rfl⟩)
    · have hPe0 : ¬ P e0 = true := fun hc => h0 ((hP e0 (List.mem_cons_self e0 rest)).mp hc)
      rw [List.filter_cons_of_neg hPe0]
      rcases List.mem_cons.mp hmem with he | hr
      · exact absurd (by rw [← he]) h0
      · exact ih t v P hnd.2 hr (fun e he => hP e (List.mem_cons_of_mem e0 he))

/-- C9: when one non-blank, non-comment stripped line text occurs exactly
`MIN_DUPLICATES = 3` times and every other text fewer than 3 times,
`DuplicateCodeRule.evaluate` returns exactly one issue, for that text,
at the line number of its first occurrence. -/
theorem duplicate_line_single_issue (lines : List Line) (t : Line)
    (h3 : (dupOccurrences lines t).length = 3)
    (hOther : ∀ s : Line, s ≠ t → (dupOccurrences lines s).length < 3) :
    dupEvaluateLines 3 lines =
      [{ rule := strLit "DUPLICATE_CODE", message := dupMsg 3,
         line := some ((dupOccurrences lines t).headD 0),
         severity := strLit "warning" }] := by
  have hocc_eq : ∀ s : Line,
      dupOccurrences lines s = dupOccBy s (getLines lines) := fun s => rfl
  have hnodup : ((dupSeenFrom [] (getLines lines)).map Prod.fst).Nodup :=
    dupSeenFrom_keys_nodup (getLines lines) [] (by simp)
  have hvals : ∀ e ∈ dupSeenFrom [] (getLines lines),
      e.2 = dupOccBy e.1 (getLines lines) := by
    intro e he
    have h1 := dup_entry_vals _ e hnodup he
    have h2 := dupSeenFrom_vals (getLines lines) [] e.1
    rw [h1] at h2
    simpa [dupVals, List.find?] using h2
  have htk : t ∈ (dupSeenFrom [] (getLines lines)).map Prod.fst := by
    apply dupSeenFrom_keys_of_occ
    rw [← hocc_eq t]
    intro hc
    rw [hc] at h3
    simp at h3
  obtain ⟨e, he, he1⟩ := List.mem_map.mp htk
  have hev : e.2 = dupOccurrences lines t := by
    rw [hocc_eq t, ← he1]
    exact hvals e he
  have hmem' : (t, e.2) ∈ dupSeenFrom [] (getLines lines) := by
    have heq : (t, e.2) = e := by
      rw [← he1]
    rw [heq]
    exact he
  have hPiff : ∀ p ∈ dupSeenFrom [] (getLines lines),
      ((decide (3 ≤ p.2.length) : Bool) = true ↔ p.1 = t) := by
    intro p hp
    have hpv : p.2 = dupOccBy p.1 (getLines lines) := hvals p hp
    constructor
    · intro hP
      by_contra hne
      have hlt := hOther p.1 hne
      rw [hocc_eq p.1] at hlt
      rw [hpv] at hP
      have := of_decide_eq_true hP
      omega
    · intro hp1
      rw [hpv, hp1, ← hocc_eq t, h3]
      decide
  unfold dupEvaluateLines
  rw [dup_filter_singleton (dupSeenFrom [] (getLines lines)) t e.2 _ hnodup
    hmem' hPiff]
  simp only [List.map]
  rw [hev, h3]

/-- Witness for C9: three identical lines `x = 1` yield exactly one
duplicate-line issue at line 1. -/
theorem duplicate_line_single_issue_witness :
    dupEvaluateLines 3 wDupLines =
      [{ rule := strLit "DUPLICATE_CODE", message := dupMsg 3,
         line := some 1, severity := strLit "warning" }] :=
  duplicate_line_single_issue wDupLines (strLit "x = 1") (by decide)
    (by
      intro s hs
      have hbeq : ((strLit "x = 1" : Line) == s) = false := by
        simp only [beq_eq_false_iff_ne]
        exact fun hc => hs hc.symm
      have hg : getLines wDupLines =
          [(1, strLit "x = 1", strLit "x = 1"),
           (2, strLit "x = 1", strLit "x = 1"),
           (3, strLit "x = 1", strLit "x = 1")] := by decide
      unfold dupOccurrences
      rw [hg]
      simp [List.filter_cons, hbeq])
